import Mathlib

/-!
# Verification of the `registrar` crate's core layer

A shallow embedding of the request/response handling layer of the
`registrar` Rust crate: the two response-normalization policies
(`name_com::client::NameDotCom` and `porkbun::client::Porkbun`), the two
pagination aggregators (`name_com::domain::DomainsClient::list` /
`name_com::dns::DnsClient::list_records` and
`porkbun::domain::Domain::list_all`), and the request construction of the
Porkbun client (embedded body credentials, no auth header).

JSON values are modelled by an inductive `Json`; a raw HTTP response is a
status code, the raw body text, and the result of parsing that text as
JSON (`none` when the text is not valid JSON).  Deserialization of a
target type `T` is abstracted as a function `Json → Option T`; the serde
deserializers of the concrete envelope structs (`ErrorResponse`,
`StatusResponse`) are embedded explicitly, following serde's semantics for
required fields, `#[serde(default)]`, and `Option` fields.

The pagination loops are embedded with explicit fuel: a result of `none`
means the loop did not finish within the given fuel; the loops also count
how many fetches they performed.
-/

namespace Registrar

/-- JSON values, as produced by `serde_json` parsing.  Numbers are modelled
as integers (no claim in scope depends on floating-point payloads). -/
inductive Json where
  | null
  | bool (b : Bool)
  | num (n : Int)
  | str (s : String)
  | arr (elems : List Json)
  | obj (fields : List (String × Json))

/-- Look a key up in a JSON object's field list (first occurrence). -/
def Json.lookupField : List (String × Json) → String → Option Json
  | [], _ => none
  | (k, v) :: rest, key => if k = key then some v else Json.lookupField rest key

/-- Field access on a JSON value: defined only on objects. -/
def Json.getField : Json → String → Option Json
  | .obj fs, key => Json.lookupField fs key
  | _, _ => none

/-- The kind of a `reqwest::Error` (the transport library's error type):
connection-level failure, body-decode failure (`Response::json()`), or a
non-success status turned into an error by `error_for_status`. -/
inductive ReqwestErrorKind where
  | connect
  | decode
  | status
  deriving DecidableEq, Repr

/-- A `reqwest::Error`: its kind plus a display message. -/
structure ReqwestError where
  kind : ReqwestErrorKind
  msg : String
  deriving DecidableEq, Repr

/-- The crate's universal error type `registrar::Error` (src/lib.rs):
`Http(reqwest::Error)`, `Json(serde_json::Error)` (message only), and
`Api(String)`. -/
inductive Error where
  | http (e : ReqwestError)
  | json (msg : String)
  | api (msg : String)
  deriving DecidableEq, Repr

/-- A raw HTTP response: the status code, the body text, and the result of
parsing the body text as JSON (`none` when the text is not valid JSON).
`json` is understood to be the JSON parse of `text`; the two fields are
carried separately because the error path of the Name.com normalizer uses
the raw text verbatim when the body is unparseable. -/
structure RawResponse where
  status : Nat
  text : String
  json : Option Json

/-! ## Name.com (vendor A): status-driven normalization -/

namespace NameCom

/-- `name_com::types::ErrorResponse`: `{ message: String, #[serde(default)] details: String }`. -/
structure ErrorResponse where
  message : String
  details : String
  deriving DecidableEq, Repr

/-- serde deserialization of `ErrorResponse` from a JSON value: the value
must be an object, `message` must be present and a string, `details` is
optional (default `""`) but must be a string when present. -/
def errorResponseFromJson : Json → Option ErrorResponse
  | .obj fs =>
    match Json.lookupField fs "message" with
    | some (.str m) =>
      match Json.lookupField fs "details" with
      | none => some ⟨m, ""⟩
      | some (.str d) => some ⟨m, d⟩
      | some _ => none
    | _ => none
  | _ => none

/-- The message of the `reqwest::Error` produced when a success response's
body fails to read/deserialize as `T` (`Response::json()`). -/
def decodeFailureMsg : String := "error decoding response body"

/-- `NameDotCom::build_api_error`: read the body text; if it parses as
`ErrorResponse`, the API error message is its `message` field, otherwise
the raw body text verbatim. -/
def build_api_error (resp : RawResponse) : Error :=
  match resp.json with
  | some j =>
    match errorResponseFromJson j with
    | some apiError => .api apiError.message
    | none => .api resp.text
  | none => .api resp.text

/-- `NameDotCom::handle_response_with_body`: on status 200 or 201,
deserialize the body as `T` (`response.json()`, whose failure is wrapped
as `Error::Http` with a reqwest decode error); on any other status, build
an API error from the body. -/
def handle_response_with_body {T : Type} (decodeT : Json → Option T)
    (resp : RawResponse) : Except Error T :=
  if resp.status = 200 ∨ resp.status = 201 then
    match resp.json with
    | some j =>
      match decodeT j with
      | some t => .ok t
      | none => .error (.http ⟨.decode, decodeFailureMsg⟩)
    | none => .error (.http ⟨.decode, decodeFailureMsg⟩)
  else
    .error (build_api_error resp)

/-- `NameDotCom::handle_empty_response`: status 204 is the only success;
any other status builds an API error from the body. -/
def handle_empty_response (resp : RawResponse) : Except Error Unit :=
  if resp.status = 204 then .ok () else .error (build_api_error resp)

/-- One page of a Name.com list response
(`ListDomainsResponse` / `ListDnsRecordsResponse`): a `#[serde(default)]`
list of items plus `next_page : Option<i32>`. -/
structure ListPageResponse (α : Type) where
  items : List α
  nextPage : Option Int
  deriving DecidableEq, Repr

/-- The pagination loop shared by `DomainsClient::list` and
`DnsClient::list_records`: starting from page 1, fetch the page at the
current cursor, append its items, stop when `next_page` is absent,
otherwise continue at `next_page`.  `fetch` stands for one
`client.get(...?page={page})` round trip.  The loop is given explicit
fuel (`none` = fuel exhausted before the loop finished) and counts the
fetches it performed. -/
def listAux {α : Type} (fetch : Int → Except Error (ListPageResponse α)) :
    Nat → Int → List α → Nat → Option (Except Error (List α) × Nat)
  | 0, _, _, _ => none
  | fuel + 1, page, acc, count =>
    match fetch page with
    | .error e => some (.error e, count + 1)
    | .ok resp =>
      let acc2 := acc ++ resp.items
      match resp.nextPage with
      | none => some (.ok acc2, count + 1)
      | some p => listAux fetch fuel p acc2 (count + 1)

/-- `DomainsClient::list` / `DnsClient::list_records`: run the pagination
loop from page 1 with an empty accumulator. -/
def list {α : Type} (fetch : Int → Except Error (ListPageResponse α))
    (fuel : Nat) : Option (Except Error (List α) × Nat) :=
  listAux fetch fuel 1 [] 0

end NameCom

/-! ## Porkbun (vendor B): envelope-driven normalization -/

namespace Porkbun

/-- `porkbun::types::StatusResponse`:
`{ status: String, #[serde(default)] message: Option<String> }`. -/
structure StatusResponse where
  status : String
  message : Option String
  deriving DecidableEq, Repr

/-- serde deserialization of `StatusResponse` from a JSON value: the value
must be an object, `status` must be present and a string; `message` is an
`Option<String>` with `#[serde(default)]`: absent or `null` gives `none`,
a string gives `some`, any other value is a deserialization error. -/
def statusResponseFromJson : Json → Option StatusResponse
  | .obj fs =>
    match Json.lookupField fs "status" with
    | some (.str s) =>
      match Json.lookupField fs "message" with
      | none => some ⟨s, none⟩
      | some .null => some ⟨s, none⟩
      | some (.str m) => some ⟨s, some m⟩
      | some _ => none
    | _ => none
  | _ => none

/-- Message of the `serde_json::Error` raised when the body text is not
valid JSON. -/
def invalidJsonMsg : String := "expected value"

/-- Message of the `serde_json::Error` raised when the body does not
deserialize as `StatusResponse` (e.g. no `status` field). -/
def envelopeMsg : String := "missing field status"

/-- Message of the `serde_json::Error` raised when the body does not
deserialize as the final target type `T`. -/
def targetShapeMsg : String := "response body did not match T"

/-- Response handling of `Porkbun::post`: `error_for_status()?` turns a
non-2xx status into an `Error::Http`; otherwise the buffered body text is
parsed as `StatusResponse` first (failure is an `Error::Json`); if
`status == "ERROR"` the call fails with `Error::Api` carrying the
`message` field or `"Unknown API error"` when it is `none`; otherwise the
same full body is deserialized as `T`. -/
def post {T : Type} (decodeT : Json → Option T) (resp : RawResponse) :
    Except Error T :=
  if 200 ≤ resp.status ∧ resp.status ≤ 299 then
    match resp.json with
    | none => .error (.json invalidJsonMsg)
    | some j =>
      match statusResponseFromJson j with
      | none => .error (.json envelopeMsg)
      | some statusCheck =>
        if statusCheck.status = "ERROR" then
          .error (.api (statusCheck.message.getD "Unknown API error"))
        else
          match decodeT j with
          | some t => .ok t
          | none => .error (.json targetShapeMsg)
  else
    .error (.http ⟨.status, "HTTP status client/server error"⟩)

/-- Response handling of `Porkbun::post_unauthenticated`: the source
duplicates the body of `post` verbatim (same `error_for_status`, same
envelope check before the final deserialization). -/
def post_unauthenticated {T : Type} (decodeT : Json → Option T)
    (resp : RawResponse) : Except Error T :=
  if 200 ≤ resp.status ∧ resp.status ≤ 299 then
    match resp.json with
    | none => .error (.json invalidJsonMsg)
    | some j =>
      match statusResponseFromJson j with
      | none => .error (.json envelopeMsg)
      | some statusCheck =>
        if statusCheck.status = "ERROR" then
          .error (.api (statusCheck.message.getD "Unknown API error"))
        else
          match decodeT j with
          | some t => .ok t
          | none => .error (.json targetShapeMsg)
  else
    .error (.http ⟨.status, "HTTP status client/server error"⟩)

/-- The pagination loop of `porkbun::domain::Domain::list_all`: starting
from offset 0, fetch the batch at the current offset, stop (returning the
accumulator) when the batch is empty, otherwise advance the offset by the
batch's length and append the batch.  `fetch` stands for one POST of a
`DomainListRequest { start: Some(start), .. }` round trip, reduced to the
`domains` list of its `DomainListResponse`.  Fuel and fetch counting as in
`NameCom.listAux`. -/
def listAllAux {α : Type} (fetch : Nat → Except Error (List α)) :
    Nat → Nat → List α → Nat → Option (Except Error (List α) × Nat)
  | 0, _, _, _ => none
  | fuel + 1, start, acc, count =>
    match fetch start with
    | .error e => some (.error e, count + 1)
    | .ok batch =>
      if batch.isEmpty then some (.ok acc, count + 1)
      else listAllAux fetch fuel (start + batch.length) (acc ++ batch) (count + 1)

/-- `Domain::list_all`: run the offset pagination loop from offset 0 with
an empty accumulator. -/
def list_all {α : Type} (fetch : Nat → Except Error (List α))
    (fuel : Nat) : Option (Except Error (List α) × Nat) :=
  listAllAux fetch fuel 0 [] 0

/-! ### Outgoing Porkbun requests -/

/-- `porkbun::endpoints::BASE_URL`. -/
def BASE_URL : String := "https://api.porkbun.com/api/json/v3"

/-- `porkbun::endpoints::PRICING_GET`. -/
def PRICING_GET : String := "/pricing/get"

/-- `porkbun::endpoints::DNS_CREATE`. -/
def DNS_CREATE : String := "/dns/create/"

/-- `porkbun::types::Auth`: the credential pair, declared with
`secretapikey` first as in the source. -/
structure Auth where
  secretapikey : String
  apikey : String
  deriving DecidableEq, Repr

/-- serde serialization of `Auth` as the field list of a JSON object, in
declaration order. -/
def Auth.toJsonFields (a : Auth) : List (String × Json) :=
  [("secretapikey", .str a.secretapikey), ("apikey", .str a.apikey)]

/-- serde serialization of `Auth` as a JSON object (used when a method
posts `&self.client.auth` as the whole body). -/
def Auth.toJson (a : Auth) : Json := .obj a.toJsonFields

/-- HTTP methods of the transport layer. -/
inductive Method where
  | get
  | post
  | put
  | patch
  | delete
  deriving DecidableEq, Repr

/-- An outgoing HTTP request as handed to the transport: method, full URL,
optional Basic-Authorization credentials, JSON body. -/
structure HttpRequest where
  method : Method
  url : String
  basicAuth : Option (String × String)
  body : Option Json

/-- The request built by `Porkbun::post`: always a POST of
`BASE_URL ++ path` with the serialized body and no Authorization header
(`self.http_client.post(&url).json(body).send()`). -/
def mkPostRequest (path : String) (body : Json) : HttpRequest :=
  { method := .post, url := BASE_URL ++ path, basicAuth := none, body := some body }

/-- The request built by `Porkbun::post_unauthenticated`: a POST of
`BASE_URL ++ path` whose body is the empty JSON object
(`serde_json::json!({})`), with no Authorization header. -/
def mkUnauthenticatedRequest (path : String) : HttpRequest :=
  { method := .post, url := BASE_URL ++ path, basicAuth := none, body := some (.obj []) }

/-- Serialize an optional string field, honouring
`#[serde(skip_serializing_if = "Option::is_none")]`. -/
def optStrField (key : String) : Option String → List (String × Json)
  | none => []
  | some v => [(key, .str v)]

/-- `porkbun::dns::types::DnsRecordCreateRequest`: the internal request
struct of `Dns::create_record`, with the credentials `#[serde(flatten)]`ed
alongside the operation's own fields. -/
structure DnsRecordCreateRequest where
  auth : Auth
  name : Option String
  type : String
  content : String
  ttl : Option String
  prio : Option String

/-- serde serialization of `DnsRecordCreateRequest`: the flattened `auth`
fields merged alongside the caller fields at the top level; `name`, `ttl`
and `prio` are skipped when `none`. -/
def DnsRecordCreateRequest.toJson (r : DnsRecordCreateRequest) : Json :=
  .obj (r.auth.toJsonFields ++ optStrField "name" r.name ++
    [("type", .str r.type), ("content", .str r.content)] ++
    optStrField "ttl" r.ttl ++ optStrField "prio" r.prio)

/-- The request sent by `Dns::create_record` for domain `domain` with the
given options: a POST of the `DNS_CREATE` path with the
`DnsRecordCreateRequest` body (credentials embedded, no auth header). -/
def dnsCreateRecordRequest (auth : Auth) (domain : String)
    (name : Option String) (type content : String)
    (ttl prio : Option String) : HttpRequest :=
  mkPostRequest (DNS_CREATE ++ domain)
    (DnsRecordCreateRequest.toJson ⟨auth, name, type, content, ttl, prio⟩)

/-- The request sent by `Porkbun::get_pricing` (via
`post_unauthenticated`): an empty JSON object body. -/
def getPricingRequest : HttpRequest :=
  mkUnauthenticatedRequest PRICING_GET

end Porkbun

/-! ## Model servers for the pagination claims

The aggregation loops are claims about the client's interaction with an
arbitrary server; the claims quantify over conforming (and misbehaving)
server page sequences.  A conforming next-page server is built from a
list of pages, a conforming offset server from a list of nonempty
batches. -/

namespace NameCom

/-- A conforming next-page server holding the pages `ps` (one-based): page
`p` carries the items of `ps[p-1]` and `nextPage = p + 1` except on the
last page, where `nextPage` is absent.  Out-of-range cursors answer an
empty final page. -/
def serverOfPages {α : Type} (ps : List (List α)) (p : Int) :
    Except Error (ListPageResponse α) :=
  if 1 ≤ p ∧ p.toNat ≤ ps.length then
    .ok ⟨ps.getD (p.toNat - 1) [],
         if p.toNat < ps.length then some (p + 1) else none⟩
  else
    .ok ⟨[], none⟩

/-- A server that serves the pages `ps` (each pointing to the next cursor)
and then fails with `e` on the fetch after the last page: the chain never
signals termination, so the aggregator's fetch `ps.length + 1` hits the
failure. -/
def serverPagesThenFail {α : Type} (ps : List (List α)) (e : Error)
    (p : Int) : Except Error (ListPageResponse α) :=
  if 1 ≤ p ∧ p.toNat ≤ ps.length then
    .ok ⟨ps.getD (p.toNat - 1) [], some (p + 1)⟩
  else
    .error e

/-- A misbehaving next-page server: every fetch answers a nonempty page
whose `nextPage` is again 1, never signalling termination and never
advancing the cursor. -/
def badServer : Int → Except Error (ListPageResponse Nat) :=
  fun _ => .ok ⟨[0], some 1⟩

end NameCom

namespace Porkbun

/-- A conforming offset server holding the batches `bs` at cumulative
offsets: offset 0 answers the first batch, the offset just past a batch
answers the next one, and any offset past all batches answers the empty
batch.  Probes inside a batch (which the aggregator never makes) answer
the empty batch. -/
def serverOfBatches {α : Type} : List (List α) → Nat → Except Error (List α)
  | [], _ => .ok []
  | b :: rest, off =>
    if off = 0 then .ok b
    else if b.length ≤ off then serverOfBatches rest (off - b.length)
    else .ok []

/-- An offset server that serves the batches `bs` at cumulative offsets
and then fails with `e` instead of answering the empty batch. -/
def serverBatchesThenFail {α : Type} (e : Error) :
    List (List α) → Nat → Except Error (List α)
  | [], _ => .error e
  | b :: rest, off =>
    if off = 0 then .ok b
    else if b.length ≤ off then serverBatchesThenFail e rest (off - b.length)
    else .error e

end Porkbun

/-! ## Pagination proofs: the next-page convention (claim C1) -/

namespace NameCom

/-- Running the next-page loop against a conforming server from page
`i + 1` (zero-based index `i`) collects the remaining pages in order and
performs one fetch per remaining page. -/
lemma listAux_serverOfPages {α : Type} (ps : List (List α)) :
    ∀ fuel i (acc : List α) count, i < ps.length → ps.length - i ≤ fuel →
      listAux (serverOfPages ps) fuel ((i : Int) + 1) acc count =
        some (.ok (acc ++ (ps.drop i).flatten), count + (ps.length - i)) := by
  intro fuel
  induction fuel with
  | zero => intro i acc count hi hf; omega
  | succ fuel ih =>
    intro i acc count hi hf
    have htoNat : ((i : Int) + 1).toNat = i + 1 := by omega
    have hcond2 : 1 ≤ ((i : Int) + 1) ∧ i + 1 ≤ ps.length := ⟨by omega, by omega⟩
    simp only [listAux, serverOfPages, htoNat, Nat.add_sub_cancel]
    rw [if_pos hcond2]
    by_cases h2 : i + 1 < ps.length
    · rw [if_pos h2]
      show listAux (serverOfPages ps) fuel ((i : Int) + 1 + 1)
          (acc ++ ps.getD i []) (count + 1) =
        some (.ok (acc ++ (ps.drop i).flatten), count + (ps.length - i))
      have hstep : ((i : Int) + 1 + 1) = ((i + 1 : Nat) : Int) + 1 := by push_cast; ring
      rw [hstep, ih (i + 1) (acc ++ ps.getD i []) (count + 1) h2 (by omega)]
      have hl : (acc ++ ps.getD i []) ++ (ps.drop (i + 1)).flatten =
          acc ++ (ps.drop i).flatten := by
        rw [List.getD_eq_getElem ps [] hi, List.append_assoc,
          List.drop_eq_getElem_cons hi, List.flatten_cons]
      have hc : count + 1 + (ps.length - (i + 1)) = count + (ps.length - i) := by omega
      rw [hl, hc]
    · rw [if_neg h2]
      show some (Except.ok (acc ++ ps.getD i []), count + 1) =
        some (.ok (acc ++ (ps.drop i).flatten), count + (ps.length - i))
      have hlast : i + 1 = ps.length := by omega
      have hdrop : ps.drop (i + 1) = [] := by
        rw [hlast, List.drop_length]
      have hl : acc ++ ps.getD i [] = acc ++ (ps.drop i).flatten := by
        rw [List.getD_eq_getElem ps [] hi, List.drop_eq_getElem_cons hi,
          List.flatten_cons, hdrop, List.flatten_nil, List.append_nil]
      have hc : count + 1 = count + (ps.length - i) := by omega
      rw [hl, hc]

/-- C1 — next-page pagination: against a conforming server holding the
page chain `ps`, the aggregation starts at cursor 1, performs exactly one
fetch per page of the chain, and returns the concatenation of all pages'
items in page order. -/
theorem nameCom_nextPage_pagination {α : Type} (ps : List (List α))
    (hne : 1 ≤ ps.length) (fuel : Nat) (hf : ps.length ≤ fuel) :
    list (serverOfPages ps) fuel = some (.ok ps.flatten, ps.length) := by
  have h := listAux_serverOfPages ps fuel 0 [] 0 (by omega) (by omega)
  simpa using h

end NameCom

/-- C1 witness — the spec's concrete instance: pages [ids 1–100 with
nextPage = 2, ids 101–150 with nextPage absent] give exactly the 150 ids
in original order in exactly 2 fetches. -/
theorem nameCom_nextPage_pagination_witness :
    1 ≤ ([List.range' 1 100, List.range' 101 50] : List (List Nat)).length ∧
    (2 : Nat) ≤ 2 ∧
    NameCom.list (NameCom.serverOfPages [List.range' 1 100, List.range' 101 50]) 2 =
      some (.ok (List.range' 1 150), 2) := by
  refine ⟨by decide, by decide, ?_⟩
  rw [NameCom.nameCom_nextPage_pagination [List.range' 1 100, List.range' 101 50]
    (by decide) 2 (by decide)]
  have hflat : ([List.range' 1 100, List.range' 101 50] : List (List Nat)).flatten =
      List.range' 1 150 := by decide
  rw [hflat]
  rfl

/-! ## Pagination proofs: the offset convention (claim C2) -/

namespace Porkbun

/-- Offset translation: if `srv` agrees with `srv'` shifted by `k`, running
the offset loop from offset `k + m` against `srv` is the same as running
it from offset `m` against `srv'`. -/
lemma listAllAux_shift {α : Type} (srv srv' : Nat → Except Error (List α))
    (k : Nat) (h : ∀ m, srv (k + m) = srv' m) :
    ∀ fuel m (acc : List α) count,
      listAllAux srv fuel (k + m) acc count = listAllAux srv' fuel m acc count := by
  intro fuel
  induction fuel with
  | zero => intro m acc count; rfl
  | succ fuel ih =>
    intro m acc count
    simp only [listAllAux, h m]
    cases hsrv : srv' m with
    | error e => rfl
    | ok batch =>
      by_cases hb : batch.isEmpty = true
      · simp [hb]
      · simp only [hb, if_neg, Bool.false_eq_true, if_false]
        rw [Nat.add_assoc]
        exact ih (m + batch.length) (acc ++ batch) (count + 1)

/-- Peeling one nonempty batch off a conforming offset server shifts all
later probes down by that batch's length. -/
lemma serverOfBatches_shift {α : Type} (b : List α) (rest : List (List α))
    (hb : b ≠ []) (m : Nat) :
    serverOfBatches (b :: rest) (b.length + m) = serverOfBatches rest m := by
  have hpos : 0 < b.length := List.length_pos.mpr hb
  have h0 : ¬(b.length + m = 0) := by omega
  simp only [serverOfBatches, if_neg h0,
    if_pos (by omega : b.length ≤ b.length + m), Nat.add_sub_cancel_left]

/-- Running the offset loop against a conforming server holding the
nonempty batches `bs` collects all batches in order and performs one
fetch per batch plus the final empty fetch. -/
lemma listAllAux_serverOfBatches {α : Type} :
    ∀ (bs : List (List α)), (∀ b ∈ bs, b ≠ []) →
      ∀ fuel (acc : List α) count, bs.length + 1 ≤ fuel →
        listAllAux (serverOfBatches bs) fuel 0 acc count =
          some (.ok (acc ++ bs.flatten), count + (bs.length + 1)) := by
  intro bs
  induction bs with
  | nil =>
    intro _ fuel acc count hf
    match fuel, hf with
    | fuel + 1, _ => simp [listAllAux, serverOfBatches]
  | cons b rest ih =>
    intro hne fuel acc count hf
    match fuel, hf with
    | fuel + 1, hf =>
      have hb : b ≠ [] := hne b (by simp)
      have hbe : b.isEmpty = false := by
        cases b with
        | nil => exact absurd rfl hb
        | cons x xs => rfl
      have hfetch : serverOfBatches (b :: rest) 0 = .ok b := by
        simp [serverOfBatches]
      simp only [listAllAux, hfetch]
      rw [if_neg (by simp [hbe] : ¬(b.isEmpty = true)), Nat.zero_add]
      have hshift := listAllAux_shift (serverOfBatches (b :: rest))
        (serverOfBatches rest) b.length (serverOfBatches_shift b rest hb)
        fuel 0 (acc ++ b) (count + 1)
      rw [Nat.add_zero] at hshift
      rw [hshift]
      rw [ih (fun x hx => hne x (List.mem_cons_of_mem b hx)) fuel (acc ++ b)
        (count + 1) (by simpa using Nat.le_of_succ_le_succ hf)]
      have hl : (acc ++ b) ++ rest.flatten = acc ++ (b :: rest).flatten := by
        rw [List.append_assoc, List.flatten_cons]
      have hc : count + 1 + (rest.length + 1) = count + ((b :: rest).length + 1) := by
        simp [List.length_cons]; omega
      rw [hl, hc]

/-- C2 — offset-by-count pagination: against a conforming server holding
the nonempty batches `bs` (followed by the empty batch), `list_all`
starts at offset 0, advances the offset by the size of each batch,
terminates on the empty batch, and returns the concatenation of all
batches in fetch order, in `bs.length + 1` fetches. -/
theorem porkbun_offset_pagination {α : Type} (bs : List (List α))
    (hne : ∀ b ∈ bs, b ≠ []) (fuel : Nat) (hf : bs.length + 1 ≤ fuel) :
    list_all (serverOfBatches bs) fuel = some (.ok bs.flatten, bs.length + 1) := by
  have h := listAllAux_serverOfBatches bs hne fuel [] 0 hf
  simpa using h

end Porkbun

/-- C2 witness — the spec's concrete instance: fetches returning
[1000 items, 1000 items, 0 items] give exactly 2000 items in exactly
3 fetches. -/
theorem porkbun_offset_pagination_witness :
    (∀ b ∈ ([List.replicate 1000 0, List.replicate 1000 1] : List (List Nat)), b ≠ []) ∧
    ([List.replicate 1000 0, List.replicate 1000 1] : List (List Nat)).length + 1 ≤ 3 ∧
    Porkbun.list_all
      (Porkbun.serverOfBatches [List.replicate 1000 (0 : Nat), List.replicate 1000 1]) 3 =
      some (.ok (List.replicate 1000 (0 : Nat) ++ List.replicate 1000 1), 3) := by
  refine ⟨by decide, by decide, ?_⟩
  rw [Porkbun.porkbun_offset_pagination
    [List.replicate 1000 (0 : Nat), List.replicate 1000 1] (by decide) 3 (by decide)]
  have hflat : ([List.replicate 1000 (0 : Nat), List.replicate 1000 1]).flatten =
      List.replicate 1000 (0 : Nat) ++ List.replicate 1000 1 := by
    rw [List.flatten_cons, List.flatten_cons, List.flatten_nil, List.append_nil]
  rw [hflat]
  rfl

/-! ## Pagination sweep atomicity (claim C3) -/

namespace NameCom

/-- Running the next-page loop against a server whose fetch after the
`ps` chain fails: the loop fetches each page, then immediately returns
the failing fetch's error (one fetch per page plus the failing one). -/
lemma listAux_serverPagesThenFail {α : Type} (ps : List (List α)) (e : Error) :
    ∀ fuel i (acc : List α) count, i ≤ ps.length → ps.length + 1 - i ≤ fuel →
      listAux (serverPagesThenFail ps e) fuel ((i : Int) + 1) acc count =
        some (.error e, count + (ps.length + 1 - i)) := by
  intro fuel
  induction fuel with
  | zero => intro i acc count hi hf; omega
  | succ fuel ih =>
    intro i acc count hi hf
    by_cases hi2 : i < ps.length
    · have htoNat : ((i : Int) + 1).toNat = i + 1 := by omega
      have hcond : 1 ≤ ((i : Int) + 1) ∧ i + 1 ≤ ps.length := ⟨by omega, by omega⟩
      simp only [listAux, serverPagesThenFail, htoNat, Nat.add_sub_cancel]
      rw [if_pos hcond]
      show listAux (serverPagesThenFail ps e) fuel ((i : Int) + 1 + 1)
          (acc ++ ps.getD i []) (count + 1) =
        some (.error e, count + (ps.length + 1 - i))
      have hstep : ((i : Int) + 1 + 1) = ((i + 1 : Nat) : Int) + 1 := by push_cast; ring
      rw [hstep, ih (i + 1) (acc ++ ps.getD i []) (count + 1) (by omega) (by omega)]
      have hc : count + 1 + (ps.length + 1 - (i + 1)) =
          count + (ps.length + 1 - i) := by omega
      rw [hc]
    · have hcond : ¬(1 ≤ ((i : Int) + 1) ∧ ((i : Int) + 1).toNat ≤ ps.length) := by
        intro hand
        omega
      simp only [listAux, serverPagesThenFail]
      rw [if_neg hcond]
      show some (Except.error e, count + 1) = some (.error e, count + (ps.length + 1 - i))
      have hc : count + 1 = count + (ps.length + 1 - i) := by omega
      rw [hc]

end NameCom

namespace Porkbun

/-- Peeling one nonempty batch off the failing offset server shifts all
later probes down by that batch's length. -/
lemma serverBatchesThenFail_shift {α : Type} (e : Error) (b : List α)
    (rest : List (List α)) (hb : b ≠ []) (m : Nat) :
    serverBatchesThenFail e (b :: rest) (b.length + m) =
      serverBatchesThenFail e rest m := by
  have hpos : 0 < b.length := List.length_pos.mpr hb
  have h0 : ¬(b.length + m = 0) := by omega
  simp only [serverBatchesThenFail, if_neg h0,
    if_pos (by omega : b.length ≤ b.length + m), Nat.add_sub_cancel_left]

/-- Running the offset loop against a server that serves the nonempty
batches `bs` and then fails: the loop fetches each batch, then the
failing fetch, and returns that error. -/
lemma listAllAux_serverBatchesThenFail {α : Type} (e : Error) :
    ∀ (bs : List (List α)), (∀ b ∈ bs, b ≠ []) →
      ∀ fuel (acc : List α) count, bs.length + 1 ≤ fuel →
        listAllAux (serverBatchesThenFail e bs) fuel 0 acc count =
          some (.error e, count + (bs.length + 1)) := by
  intro bs
  induction bs with
  | nil =>
    intro _ fuel acc count hf
    match fuel, hf with
    | fuel + 1, _ => simp [listAllAux, serverBatchesThenFail]
  | cons b rest ih =>
    intro hne fuel acc count hf
    match fuel, hf with
    | fuel + 1, hf =>
      have hb : b ≠ [] := hne b (by simp)
      have hbe : b.isEmpty = false := by
        cases b with
        | nil => exact absurd rfl hb
        | cons x xs => rfl
      have hfetch : serverBatchesThenFail e (b :: rest) 0 = .ok b := by
        simp [serverBatchesThenFail]
      simp only [listAllAux, hfetch]
      rw [if_neg (by simp [hbe] : ¬(b.isEmpty = true)), Nat.zero_add]
      have hshift := listAllAux_shift (serverBatchesThenFail e (b :: rest))
        (serverBatchesThenFail e rest) b.length
        (serverBatchesThenFail_shift e b rest hb) fuel 0 (acc ++ b) (count + 1)
      rw [Nat.add_zero] at hshift
      rw [hshift]
      rw [ih (fun x hx => hne x (List.mem_cons_of_mem b hx)) fuel (acc ++ b)
        (count + 1) (by simpa using Nat.le_of_succ_le_succ hf)]
      have hc : count + 1 + (rest.length + 1) = count + ((b :: rest).length + 1) := by
        simp [List.length_cons]; omega
      rw [hc]

end Porkbun

/-- C3 — pagination sweep atomicity, both conventions: when a fetch of
the sweep fails, the aggregation returns exactly the error of the first
failing fetch (an `Except.error`, which carries no items, so the caller
never sees a partial list) and performs no fetch beyond the failing one:
the fetch count is the number of successful pages plus one. -/
theorem pagination_error_atomicity {α : Type} :
    (∀ (ps : List (List α)) (e : Error) (fuel : Nat), ps.length + 1 ≤ fuel →
       NameCom.list (NameCom.serverPagesThenFail ps e) fuel =
         some (.error e, ps.length + 1)) ∧
    (∀ (bs : List (List α)) (e : Error), (∀ b ∈ bs, b ≠ []) →
       ∀ fuel : Nat, bs.length + 1 ≤ fuel →
         Porkbun.list_all (Porkbun.serverBatchesThenFail e bs) fuel =
           some (.error e, bs.length + 1)) := by
  constructor
  · intro ps e fuel hf
    have h := NameCom.listAux_serverPagesThenFail ps e fuel 0 [] 0 (by omega) (by omega)
    simpa using h
  · intro bs e hne fuel hf
    have h := Porkbun.listAllAux_serverBatchesThenFail e bs hne fuel [] 0 hf
    simpa using h

/-- C3 witness — concrete sweeps whose second fetch fails: one successful
page of one item, then a failing fetch; in both conventions the result is
exactly the fetch error after exactly 2 fetches, with no items. -/
theorem pagination_error_atomicity_witness :
    ([[1]] : List (List Nat)).length + 1 ≤ 2 ∧
    (∀ b ∈ ([[1]] : List (List Nat)), b ≠ []) ∧
    NameCom.list (NameCom.serverPagesThenFail [[1]] (.api "boom")) 2 =
      some (.error (.api "boom"), 2) ∧
    Porkbun.list_all (Porkbun.serverBatchesThenFail (.api "boom") [[(1 : Nat)]]) 2 =
      some (.error (.api "boom"), 2) := by
  refine ⟨by decide, by decide, ?_, ?_⟩
  · exact (pagination_error_atomicity (α := Nat)).1 [[1]] (.api "boom") 2 (by decide)
  · exact (pagination_error_atomicity (α := Nat)).2 [[1]] (.api "boom") (by decide) 2 (by decide)

/-! ## Pagination termination (claim C4) -/

namespace NameCom

/-- Against the misbehaving server that always answers a nonempty page
with `nextPage = 1`, the next-page loop exhausts any amount of fuel: the
source loop contains no progress assertion and never terminates. -/
lemma listAux_badServer_none :
    ∀ fuel (page : Int) (acc : List Nat) count,
      listAux badServer fuel page acc count = none := by
  intro fuel
  induction fuel with
  | zero => intro page acc count; rfl
  | succ fuel ih =>
    intro page acc count
    simp only [listAux, badServer]
    exact ih 1 (acc ++ [0]) (count + 1)

end NameCom

/-- C4 counterexample — the claim fails on the code: against the concrete
misbehaving server that repeats next-page number 1 forever, the
aggregation never terminates (no fuel suffices), because the loop in
`DomainsClient::list` asserts no progress. -/
theorem pagination_nontermination_counterexample :
    ¬∃ (fuel : Nat) (r : Except Error (List Nat) × Nat),
        NameCom.list NameCom.badServer fuel = some r := by
  rintro ⟨fuel, r, h⟩
  have hn : NameCom.list NameCom.badServer fuel = none :=
    NameCom.listAux_badServer_none fuel 1 [] 0
  rw [hn] at h
  exact Option.noConfusion h

/-- C4 amended — termination holds only for conforming servers: when the
next-page chain strictly advances through finitely many pages, or the
offset server's finitely many nonempty batches end in an empty batch, the
aggregator terminates in exactly the true number of server-side fetches
(pages, resp. batches plus the final empty fetch).  Against a misbehaving
server the code loops forever, as no progress is asserted. -/
theorem pagination_termination_conforming {α : Type} :
    (∀ ps : List (List α), 1 ≤ ps.length →
       NameCom.list (NameCom.serverOfPages ps) ps.length =
         some (.ok ps.flatten, ps.length)) ∧
    (∀ bs : List (List α), (∀ b ∈ bs, b ≠ []) →
       Porkbun.list_all (Porkbun.serverOfBatches bs) (bs.length + 1) =
         some (.ok bs.flatten, bs.length + 1)) := by
  constructor
  · intro ps h
    have hh := NameCom.listAux_serverOfPages ps ps.length 0 [] 0 (by omega) (by omega)
    simpa using hh
  · intro bs h
    have hh := Porkbun.listAllAux_serverOfBatches bs h (bs.length + 1) [] 0 (by omega)
    simpa using hh

/-- C4 amended witness — concrete conforming servers: a one-page chain
terminates in 1 fetch; a one-batch offset server terminates in 2 fetches. -/
theorem pagination_termination_conforming_witness :
    1 ≤ ([[5, 6]] : List (List Nat)).length ∧
    (∀ b ∈ ([[7]] : List (List Nat)), b ≠ []) ∧
    NameCom.list (NameCom.serverOfPages [[5, 6]]) 1 = some (.ok [5, 6], 1) ∧
    Porkbun.list_all (Porkbun.serverOfBatches [[(7 : Nat)]]) 2 = some (.ok [7], 2) := by
  refine ⟨by decide, by decide, ?_, ?_⟩
  · exact (pagination_termination_conforming (α := Nat)).1 [[5, 6]] (by decide)
  · exact (pagination_termination_conforming (α := Nat)).2 [[7]] (by decide)

/-! ## Name.com status-driven normalization (claim C5) -/

/-- C5 — Vendor A status-driven normalization: a call with a body succeeds
exactly when the status is 200 or 201 and the body deserializes as `T`;
204 with empty body is the success of void operations; on any other
status the result is an `Api` error whose message is the body's `message`
field when the body parses as `{message, details}` (whose parse requires
`message` to be present), and the raw body text verbatim otherwise —
also when the body is not valid JSON at all, so the error path never
fails on malformed JSON. -/
theorem nameCom_status_normalization {T : Type} (decodeT : Json → Option T)
    (resp : RawResponse) :
    ((resp.status = 200 ∨ resp.status = 201) →
      ∀ t : T, NameCom.handle_response_with_body decodeT resp = .ok t ↔
        ∃ j, resp.json = some j ∧ decodeT j = some t) ∧
    (resp.status = 204 → NameCom.handle_empty_response resp = .ok ()) ∧
    (¬(resp.status = 200 ∨ resp.status = 201) →
      (∀ j apiErr, resp.json = some j →
        NameCom.errorResponseFromJson j = some apiErr →
        NameCom.handle_response_with_body decodeT resp = .error (.api apiErr.message)) ∧
      (∀ j, resp.json = some j → NameCom.errorResponseFromJson j = none →
        NameCom.handle_response_with_body decodeT resp = .error (.api resp.text)) ∧
      (resp.json = none →
        NameCom.handle_response_with_body decodeT resp = .error (.api resp.text))) ∧
    (∀ fs apiErr, NameCom.errorResponseFromJson (.obj fs) = some apiErr →
      Json.lookupField fs "message" = some (.str apiErr.message)) := by
  refine ⟨?_, ?_, ?_, ?_⟩
  · intro hst t
    simp only [NameCom.handle_response_with_body, if_pos hst]
    cases hj : resp.json with
    | none => simp
    | some j =>
      cases hd : decodeT j with
      | none => simp [hd]
      | some t' => simp [hd, eq_comm]
  · intro h204
    simp [NameCom.handle_empty_response, h204]
  · intro hst
    refine ⟨?_, ?_, ?_⟩
    · intro j apiErr hj herr
      simp [NameCom.handle_response_with_body, if_neg hst,
        NameCom.build_api_error, hj, herr]
    · intro j hj herr
      simp [NameCom.handle_response_with_body, if_neg hst,
        NameCom.build_api_error, hj, herr]
    · intro hj
      simp [NameCom.handle_response_with_body, if_neg hst,
        NameCom.build_api_error, hj]
  · intro fs apiErr h
    simp only [NameCom.errorResponseFromJson] at h
    cases hm : Json.lookupField fs "message" with
    | none => rw [hm] at h; simp at h
    | some v =>
      rw [hm] at h
      cases v
      case str m =>
        cases hd : Json.lookupField fs "details" with
        | none =>
          rw [hd] at h
          simp only [Option.some.injEq] at h
          rw [← h]
        | some w =>
          rw [hd] at h
          cases w
          case str d =>
            simp only [Option.some.injEq] at h
            rw [← h]
          all_goals simp at h
      all_goals simp at h

/-- C5 witness — two concrete non-2xx responses: a 404 whose body parses
as `{message, details}` yields an `Api` error carrying exactly the body's
`message` field; a 500 whose body is not valid JSON yields an `Api` error
carrying the raw body text verbatim. -/
theorem nameCom_status_normalization_witness :
    ¬((404 : Nat) = 200 ∨ (404 : Nat) = 201) ∧
    ¬((500 : Nat) = 200 ∨ (500 : Nat) = 201) ∧
    NameCom.handle_response_with_body (fun _ => (none : Option Nat))
      ⟨404, "ignored", some (.obj [("message", .str "Not Found")])⟩ =
      .error (.api "Not Found") ∧
    NameCom.handle_response_with_body (fun _ => (none : Option Nat))
      ⟨500, "Internal Server Error", none⟩ =
      .error (.api "Internal Server Error") := by
  refine ⟨by decide, by decide, ?_, ?_⟩
  · exact ((nameCom_status_normalization (fun _ => (none : Option Nat))
      ⟨404, "ignored", some (.obj [("message", .str "Not Found")])⟩).2.2.1
      (by decide)).1 (.obj [("message", .str "Not Found")]) ⟨"Not Found", ""⟩ rfl rfl
  · exact ((nameCom_status_normalization (fun _ => (none : Option Nat))
      ⟨500, "Internal Server Error", none⟩).2.2.1 (by decide)).2.2 rfl

/-! ## Porkbun envelope-driven normalization (claims C6, C7, C10) -/

/-- C6 — Vendor B envelope error: on a 2xx response whose JSON body's
`status` field is `"ERROR"`, normalization fails with an `Api` error
whose message is the body's `message` field when it is present (as a
string), and exactly `"Unknown API error"` when it is absent. -/
theorem porkbun_envelope_error {T : Type} (decodeT : Json → Option T)
    (resp : RawResponse) (h2xx : 200 ≤ resp.status ∧ resp.status ≤ 299)
    (fs : List (String × Json)) (hj : resp.json = some (.obj fs))
    (hs : Json.lookupField fs "status" = some (.str "ERROR")) :
    (∀ m, Json.lookupField fs "message" = some (.str m) →
      Porkbun.post decodeT resp = .error (.api m)) ∧
    (Json.lookupField fs "message" = none →
      Porkbun.post decodeT resp = .error (.api "Unknown API error")) := by
  constructor
  · intro m hm
    simp [Porkbun.post, if_pos h2xx, hj, Porkbun.statusResponseFromJson, hs, hm]
  · intro hm
    simp [Porkbun.post, if_pos h2xx, hj, Porkbun.statusResponseFromJson, hs, hm]

/-- C6 witness — a concrete 2xx response whose body is
`{"status": "ERROR"}` with no `message` field: the call fails with
`Api "Unknown API error"`. -/
theorem porkbun_envelope_error_witness :
    (200 ≤ (200 : Nat) ∧ (200 : Nat) ≤ 299) ∧
    Json.lookupField [("status", Json.str "ERROR")] "status" = some (.str "ERROR") ∧
    Json.lookupField [("status", Json.str "ERROR")] "message" = none ∧
    Porkbun.post (fun _ => (none : Option Nat))
      ⟨200, "ignored", some (.obj [("status", .str "ERROR")])⟩ =
      .error (.api "Unknown API error") := by
  refine ⟨by decide, rfl, rfl, ?_⟩
  exact (porkbun_envelope_error (fun _ => (none : Option Nat))
    ⟨200, "ignored", some (.obj [("status", .str "ERROR")])⟩ (by decide)
    [("status", .str "ERROR")] rfl rfl).2 rfl

/-- C7 — Vendor B envelope success: on a 2xx response whose JSON body's
`status` field is `"SUCCESS"` (and whose optional `message` field is
absent, `null`, or a string, so the envelope parses), normalization
returns `t` exactly when the complete original body deserializes as `T`
to `t`: the envelope check, which reads only the `status`/`message`
fields of the buffered body, neither consumes nor alters the payload,
whatever shape `decodeT` expects. -/
theorem porkbun_envelope_success {T : Type} (decodeT : Json → Option T)
    (resp : RawResponse) (h2xx : 200 ≤ resp.status ∧ resp.status ≤ 299)
    (fs : List (String × Json)) (hj : resp.json = some (.obj fs))
    (hs : Json.lookupField fs "status" = some (.str "SUCCESS"))
    (hm : Json.lookupField fs "message" = none ∨
          Json.lookupField fs "message" = some .null ∨
          ∃ m, Json.lookupField fs "message" = some (.str m)) :
    ∀ t : T, Porkbun.post decodeT resp = .ok t ↔ decodeT (.obj fs) = some t := by
  intro t
  rcases hm with hm | hm | ⟨m, hm⟩ <;>
    simp only [Porkbun.post, if_pos h2xx, hj, Porkbun.statusResponseFromJson, hs, hm] <;>
    cases hd : decodeT (.obj fs) <;>
    simp [hd, eq_comm]

/-- C7 witness — a concrete 2xx response with body
`{"status": "SUCCESS", "yourIp": "1.2.3.4"}` and a decoder for the
`yourIp` field (a `T` that does not define `status`): normalization
returns exactly the decoded payload. -/
theorem porkbun_envelope_success_witness :
    (200 ≤ (200 : Nat) ∧ (200 : Nat) ≤ 299) ∧
    Json.lookupField [("status", Json.str "SUCCESS"), ("yourIp", Json.str "1.2.3.4")]
      "status" = some (.str "SUCCESS") ∧
    Porkbun.post (fun j => j.getField "yourIp")
      ⟨200, "ignored",
        some (.obj [("status", .str "SUCCESS"), ("yourIp", .str "1.2.3.4")])⟩ =
      .ok (Json.str "1.2.3.4") := by
  refine ⟨by decide, rfl, ?_⟩
  exact ((porkbun_envelope_success (fun j => j.getField "yourIp")
    ⟨200, "ignored",
      some (.obj [("status", .str "SUCCESS"), ("yourIp", .str "1.2.3.4")])⟩
    (by decide) [("status", .str "SUCCESS"), ("yourIp", .str "1.2.3.4")] rfl rfl
    (Or.inl rfl)) (Json.str "1.2.3.4")).mpr rfl

/-- C10 — mandatory Vendor B envelope: on a 2xx response whose body is
valid JSON but lacks a `status` field, both `post` and
`post_unauthenticated` fail with the JSON-decode error of the envelope
parse, before and regardless of any attempt to deserialize `T` — the
result is the same for every `decodeT`, including ones that would accept
the body. -/
theorem porkbun_mandatory_envelope {T : Type} (decodeT : Json → Option T)
    (resp : RawResponse) (h2xx : 200 ≤ resp.status ∧ resp.status ≤ 299)
    (fs : List (String × Json)) (hj : resp.json = some (.obj fs))
    (hs : Json.lookupField fs "status" = none) :
    Porkbun.post decodeT resp = .error (.json Porkbun.envelopeMsg) ∧
    Porkbun.post_unauthenticated decodeT resp = .error (.json Porkbun.envelopeMsg) := by
  constructor <;>
    simp [Porkbun.post, Porkbun.post_unauthenticated, if_pos h2xx, hj,
      Porkbun.statusResponseFromJson, hs]

/-- C10 witness — a concrete 2xx response whose body `{"yourIp": "..."}`
lacks `status` but would deserialize as the target (the decoder accepts
it): both call paths still fail with the envelope's JSON decode error. -/
theorem porkbun_mandatory_envelope_witness :
    (200 ≤ (200 : Nat) ∧ (200 : Nat) ≤ 299) ∧
    Json.lookupField [("yourIp", Json.str "1.2.3.4")] "status" = none ∧
    (fun j => j.getField "yourIp") (Json.obj [("yourIp", Json.str "1.2.3.4")]) =
      some (Json.str "1.2.3.4") ∧
    Porkbun.post (fun j => j.getField "yourIp")
      ⟨200, "ignored", some (.obj [("yourIp", .str "1.2.3.4")])⟩ =
      .error (.json Porkbun.envelopeMsg) ∧
    Porkbun.post_unauthenticated (fun j => j.getField "yourIp")
      ⟨200, "ignored", some (.obj [("yourIp", .str "1.2.3.4")])⟩ =
      .error (.json Porkbun.envelopeMsg) := by
  refine ⟨by decide, rfl, rfl, ?_, ?_⟩
  · exact (porkbun_mandatory_envelope (fun j => j.getField "yourIp")
      ⟨200, "ignored", some (.obj [("yourIp", .str "1.2.3.4")])⟩ (by decide)
      [("yourIp", .str "1.2.3.4")] rfl rfl).1
  · exact (porkbun_mandatory_envelope (fun j => j.getField "yourIp")
      ⟨200, "ignored", some (.obj [("yourIp", .str "1.2.3.4")])⟩ (by decide)
      [("yourIp", .str "1.2.3.4")] rfl rfl).2

/-! ## Error-kind distinguishability (claim C8) -/

/-- C8 — evaluation at the failing input: a success-status response whose
body fails to deserialize as `T`.  On the Porkbun path the failure
surfaces as the `Error.json` variant (a decode kind distinct from the
`Error.http` transport variant); on the Name.com path
`response.json().await.map_err(Error::Http)` wraps the reqwest decode
failure in `Error.http` — the same enum variant that carries
network/TLS/DNS transport errors, contrary to the crate's own variant
documentation and the spec's distinct `DecodeError` kind. -/
theorem decode_error_kind_evaluation :
    NameCom.handle_response_with_body (fun _ => (none : Option Nat))
      ⟨200, "\x7b\x7d", some (.obj [])⟩ =
      .error (.http ⟨.decode, NameCom.decodeFailureMsg⟩) ∧
    Porkbun.post (fun _ => (none : Option Nat))
      ⟨200, "ignored", some (.obj [("status", .str "SUCCESS")])⟩ =
      .error (.json Porkbun.targetShapeMsg) := by
  constructor <;> rfl

/-! ## Porkbun embedded authentication (claim C9) -/

/-- C9 counterexample — the request sent by `Porkbun::get_pricing` (via
`post_unauthenticated`): its body is the empty JSON object, which
contains neither `apikey` nor `secretapikey`, refuting "every request
sent by the Porkbun client ... contains the two credential fields". -/
theorem porkbun_unauthenticated_no_credentials :
    Porkbun.getPricingRequest.body = some (.obj []) ∧
    Json.lookupField ([] : List (String × Json)) "apikey" = none ∧
    Json.lookupField ([] : List (String × Json)) "secretapikey" = none ∧
    Porkbun.getPricingRequest.method = .post ∧
    Porkbun.getPricingRequest.basicAuth = none :=
  ⟨rfl, rfl, rfl, rfl, rfl⟩

/-- C9 amended — every request built by the Porkbun client is a POST with
no Authorization header; every authenticated request embeds the two
credential fields flat in its JSON body alongside the operation's own
fields (shown for the flattened `DnsRecordCreateRequest` of
`Dns::create_record` and for the bare `Auth` body used by the many
endpoints that post the credentials alone); the sole exception to the
credential embedding is the unauthenticated pricing endpoint, whose body
is the empty JSON object. -/
theorem porkbun_embedded_auth (auth : Porkbun.Auth) (path domain : String)
    (body : Json) (name : Option String) (type content : String)
    (ttl prio : Option String) :
    ((Porkbun.mkPostRequest path body).method = .post ∧
     (Porkbun.mkPostRequest path body).basicAuth = none ∧
     (Porkbun.mkPostRequest path body).body = some body) ∧
    ((Porkbun.mkUnauthenticatedRequest path).method = .post ∧
     (Porkbun.mkUnauthenticatedRequest path).basicAuth = none) ∧
    (Json.getField auth.toJson "apikey" = some (.str auth.apikey) ∧
     Json.getField auth.toJson "secretapikey" = some (.str auth.secretapikey)) ∧
    ((Porkbun.dnsCreateRecordRequest auth domain name type content ttl prio).method =
       .post ∧
     (Porkbun.dnsCreateRecordRequest auth domain name type content ttl prio).basicAuth =
       none ∧
     (Porkbun.dnsCreateRecordRequest auth domain name type content ttl prio).body =
       some (Porkbun.DnsRecordCreateRequest.toJson
         ⟨auth, name, type, content, ttl, prio⟩) ∧
     Json.getField
       (Porkbun.DnsRecordCreateRequest.toJson ⟨auth, name, type, content, ttl, prio⟩)
       "apikey" = some (.str auth.apikey) ∧
     Json.getField
       (Porkbun.DnsRecordCreateRequest.toJson ⟨auth, name, type, content, ttl, prio⟩)
       "secretapikey" = some (.str auth.secretapikey)) := by
  refine ⟨⟨rfl, rfl, rfl⟩, ⟨rfl, rfl⟩, ⟨?_, ?_⟩, rfl, rfl, rfl, ?_, ?_⟩
  · simp [Porkbun.Auth.toJson, Porkbun.Auth.toJsonFields, Json.getField,
      Json.lookupField]
  · simp [Porkbun.Auth.toJson, Porkbun.Auth.toJsonFields, Json.getField,
      Json.lookupField]
  · simp [Porkbun.DnsRecordCreateRequest.toJson, Porkbun.Auth.toJsonFields,
      Json.getField, Json.lookupField, List.cons_append, List.nil_append]
  · simp [Porkbun.DnsRecordCreateRequest.toJson, Porkbun.Auth.toJsonFields,
      Json.getField, Json.lookupField, List.cons_append, List.nil_append]

end Registrar
